import Mathlib

/-!
Shallow embedding of the GitHubUploader module
(`src/github_uploader_simplified.py`) and verification of its specification.

Strings are modelled as `List Char`.  Python never raises on the operations
used by this module, so all string transforms are total functions.
-/

/-- The set of characters stripped by Python's `str.strip()` with no
arguments: every character whose Unicode database entry marks it as
whitespace.  Listed by code point. -/
def pyWhitespace : List Nat :=
  [9, 10, 11, 12, 13, 28, 29, 30, 31, 32, 133, 160, 5760,
   8192, 8193, 8194, 8195, 8196, 8197, 8198, 8199, 8200, 8201, 8202,
   8232, 8233, 8239, 8287, 12288]

/-- Whether Python's `str.strip()` considers `c` whitespace. -/
def isPySpace (c : Char) : Bool :=
  pyWhitespace.contains c.toNat

/-- Python `s.replace(c, d)` for single-character `c`, `d`: replace every
occurrence of `c` by `d`. -/
def pyReplaceChar (c d : Char) (s : List Char) : List Char :=
  s.map (fun x => if x = c then d else x)

/-- Python `s.lstrip()`. -/
def pyLStrip (s : List Char) : List Char :=
  s.dropWhile isPySpace

/-- Python `s.rstrip()`. -/
def pyRStrip (s : List Char) : List Char :=
  (s.reverse.dropWhile isPySpace).reverse

/-- Python `s.strip()`: remove leading and trailing whitespace. -/
def pyStrip (s : List Char) : List Char :=
  pyRStrip (pyLStrip s)

/-- The decimal digit character for `n < 10` (callers only pass values
below 10; the final catch-all is never reached with in-range input). -/
def digitChar (n : Nat) : Char :=
  if n = 0 then '0' else if n = 1 then '1' else if n = 2 then '2'
  else if n = 3 then '3' else if n = 4 then '4' else if n = 5 then '5'
  else if n = 6 then '6' else if n = 7 then '7' else if n = 8 then '8'
  else '9'

/-- Worker for `natDigits`; `fuel ≥ n` guarantees the first branch is
never reached before the number is exhausted. -/
def natDigitsGo : Nat → Nat → List Char
  | 0, n => [digitChar (n % 10)]
  | fuel + 1, n =>
    if n < 10 then [digitChar n]
    else natDigitsGo fuel (n / 10) ++ [digitChar (n % 10)]

/-- Python `str(n)` for a natural number `n`: decimal rendering, most
significant digit first. -/
def natDigits (n : Nat) : List Char :=
  natDigitsGo n n

/-- Python truthiness fallback `name or default` for an optional string:
`None` and the empty string are falsy. -/
def pyOr (s : Option (List Char)) (d : List Char) : List Char :=
  match s with
  | some n => if n = [] then d else n
  | none => d

/-- The generated fallback filename `f"file_{int(time.time())}"`, with the
clock reading modelled as the natural number `ts`. -/
def generatedName (ts : Nat) : List Char :=
  "file_".data ++ natDigits ts

/-- One iteration of the `for char in invalid_chars` loop body in
`_sanitize_filename`: replace `char` by an underscore unless it is the
asterisk. -/
def replaceStep (acc : List Char) (c : Char) : List Char :=
  if c = '*' then acc else pyReplaceChar c '_' acc

/-- The `for char in invalid_chars` loop of `_sanitize_filename`, iterating
over the characters of the Python literal `'<>:"|?*\\'`. -/
def applyInvalid (s : List Char) : List Char :=
  List.foldl replaceStep s ("<>:\"|?*\\".data)

/-- Embedding of `GitHubUploader._sanitize_filename` (src lines 118-131).  `ts` models
the value of `int(time.time())` at the moment the fallback name is built. -/
def sanitize_filename (ts : Nat) (filename : List Char) : List Char :=
  let s1 := pyReplaceChar ' ' '*' filename
  let s2 := applyInvalid s1
  let s3 := if pyStrip s2 = [] then generatedName ts else s2
  pyStrip s3

/-- The sanitizer as the spec (§4.4) words it: (1) replace spaces by
asterisks; (2) replace each of the characters `< > : " | ? \` by an
underscore; (3) if the result is empty or all-whitespace, substitute the
generated name; (4) trim leading and trailing whitespace. -/
def sanitize_spec (ts : Nat) (filename : List Char) : List Char :=
  let s1 := pyReplaceChar ' ' '*' filename
  let s2 := List.foldl (fun acc c => pyReplaceChar c '_' acc) s1
    ['<', '>', ':', '\"', '|', '?', '\\']
  let s3 := if s2 = [] ∨ (∀ c ∈ s2, isPySpace c = true) then generatedName ts else s2
  pyStrip s3

/-- Python `s.rfind(c)` for a single character: highest index of an
occurrence, or `-1` if there is none.  `i` is the index of the head of the
remaining list, `best` the best index found so far. -/
def pyRFindAux (c : Char) : List Char → Int → Int → Int
  | [], _, best => best
  | a :: t, i, best => pyRFindAux c t (i + 1) (if a = c then i else best)

/-- Python `s.rfind(c)`. -/
def pyRFind (c : Char) (s : List Char) : Int :=
  pyRFindAux c s 0 (-1)

/-- Embedding of `os.path.splitext` (posix flavour, as used on the upload path): split
off the extension at the last dot, unless every character between the last
path separator and that dot is itself a dot. -/
def splitext (p : List Char) : List Char × List Char :=
  let sepIndex := pyRFind '/' p
  let dotIndex := pyRFind '.' p
  if sepIndex < dotIndex then
    let lo := (sepIndex + 1).toNat
    let hi := dotIndex.toNat
    if (List.range hi).any (fun j => decide (lo ≤ j) && !(p.getD j ' ' == '.')) then
      (p.take hi, p.drop hi)
    else (p, [])
  else (p, [])

/-- Embedding of `GitHubUploader._check_rate_limit` (src lines 220-228).  The module
field `self._last_upload` is modelled as a map from user id to the
timestamp of the last accepted request; `now` models `time.time()`.
Returns the boolean result and the map afterwards. -/
def check_rate_limit (now : ℚ) (user_id : Int) (last_upload : Int → Option ℚ) :
    Bool × (Int → Option ℚ) :=
  let last := (last_upload user_id).getD 0
  if now - last < 10 then (false, last_upload)
  else (true, fun k => if k = user_id then some now else last_upload k)

/-- The JSON value of a GitHub response, restricted to the projections the
module reads: `result.get("message", ...)`, `user_data["login"]`,
`existing_file["sha"]`, and the check `"rate limit" in str(result).lower()`
(abstracted as the flag `mentionsRateLimit`). -/
structure Body where
  message : Option (List Char)
  login : Option (List Char)
  sha : Option (List Char)
  mentionsRateLimit : Bool
deriving DecidableEq

/-- One HTTP request issued by `_make_github_request`: the token used for
the `Authorization` header, the method and the endpoint.  Request bodies
(JSON payloads of POST/PUT) are not modelled. -/
structure Request where
  token : List Char
  method : List Char
  endpoint : List Char
deriving DecidableEq

/-- What the transport layer yields for one request: a
transport-level failure (`aiohttp.ClientError`) carrying its message, or a
status code with a parsed JSON body. -/
inductive TransportResult where
  | clientError (msg : List Char)
  | response (status : Nat) (body : Body)
deriving DecidableEq

/-- The remote side, modelled as an oracle: the result of the `n`-th
request issued in this orchestration (counted from 0) as a function of the
request.  Quantifying theorems over all oracles covers every behaviour of
the stateful remote service during a single sequential orchestration. -/
def Oracle := Nat → Request → TransportResult

/-- Embedding of `GitHubUploader._make_github_request` (src lines 148-170).  `tr` is the
list of requests issued so far in this orchestration; the call appends its
own request.  Python exceptions are modelled as `Except.error` carrying the
exception message. -/
def make_github_request (o : Oracle) (token method endpoint : List Char)
    (tr : List Request) : Except (List Char) Body × List Request :=
  let req : Request := ⟨token, method, endpoint⟩
  let tr2 := tr ++ [req]
  match o tr.length req with
  | .clientError e => (.error ("Network error: ".data ++ e), tr2)
  | .response status body =>
    if status = 403 ∧ body.mentionsRateLimit = true then
      (.error ("Rate limit exceeded".data), tr2)
    else if 400 ≤ status then
      (.error (body.message.getD ("HTTP ".data ++ natDigits status)), tr2)
    else
      (.ok body, tr2)

/-- Whether `_make_github_request` returns normally for a given transport
result (no network error, no rate-limit hit, status below 400). -/
def requestOk (t : TransportResult) : Bool :=
  match t with
  | .clientError _ => false
  | .response status body =>
    !(status == 403 && body.mentionsRateLimit) && status < 400

/-- The message of `str(KeyError('login'))`: the key wrapped in single
quotes (code point 39). -/
def keyErrorLogin : List Char :=
  Char.ofNat 39 :: ("login".data ++ [Char.ofNat 39])

/-- Embedding of `GitHubUploader._get_github_username` (src lines 172-177): a `GET
/user` call; its `login` field on success; any failure (including a missing
`login` key) re-raised with the `Failed to get username: ` preamble. -/
def get_github_username (o : Oracle) (token : List Char) (tr : List Request) :
    Except (List Char) (List Char) × List Request :=
  match make_github_request o token ("GET".data) ("/user".data) tr with
  | (.ok body, tr2) =>
    match body.login with
    | some l => (.ok l, tr2)
    | none => (.error ("Failed to get username: ".data ++ keyErrorLogin), tr2)
  | (.error e, tr2) => (.error ("Failed to get username: ".data ++ e), tr2)

/-- The endpoint `f"/repos/{username}/{repo_name}"`. -/
def repoEndpoint (username repo : List Char) : List Char :=
  "/repos/".data ++ username ++ "/".data ++ repo

/-- The endpoint `f"/repos/{username}/{repo_name}/contents/{filename}"`. -/
def contentsEndpoint (username repo filename : List Char) : List Char :=
  "/repos/".data ++ username ++ "/".data ++ repo ++ "/contents/".data ++ filename

/-- Embedding of `GitHubUploader._repository_exists` (src lines 179-184): probe the
repository metadata endpoint; any exception means `False`. -/
def repository_exists (o : Oracle) (token username repo : List Char)
    (tr : List Request) : Bool × List Request :=
  match make_github_request o token ("GET".data) (repoEndpoint username repo) tr with
  | (.ok _, tr2) => (true, tr2)
  | (.error _, tr2) => (false, tr2)

/-- Embedding of `GitHubUploader._create_repository` (src lines 186-194): `POST
/user/repos`.  The JSON payload (name, description, private=False,
auto_init=True) is not modelled, see `Request`. -/
def create_repository (o : Oracle) (token repo : List Char)
    (tr : List Request) : Except (List Char) Body × List Request :=
  make_github_request o token ("POST".data) ("/user/repos".data) tr

/-- The `while True` loop of `_get_unique_filename` (src lines 138-144).
`current` is the candidate, `counter` the collision counter; the loop has
no bound in the source, so the model takes `fuel` and yields `none` when
the source would still be looping after `fuel` probes. -/
def unique_loop (o : Oracle) (token username repo name ext : List Char) :
    Nat → List Char → Nat → List Request → Option (List Char × List Request)
  | 0, _, _, _ => none
  | fuel + 1, current, counter, tr =>
    match make_github_request o token ("GET".data)
        (contentsEndpoint username repo current) tr with
    | (.ok _, tr2) =>
      unique_loop o token username repo name ext fuel
        (name ++ "_".data ++ natDigits (counter + 1) ++ ext) (counter + 1) tr2
    | (.error _, tr2) => some (current, tr2)

/-- Embedding of `GitHubUploader._get_unique_filename` (src lines 133-146). -/
def get_unique_filename (o : Oracle) (token username repo filename : List Char)
    (fuel : Nat) (tr : List Request) : Option (List Char × List Request) :=
  let p := splitext filename
  unique_loop o token username repo p.1 p.2 fuel filename 0 tr

/-- Embedding of `GitHubUploader._upload_file` (src lines 196-218): a contents lookup
whose outcome selects create vs update (commit message and `sha` live in
the unmodelled request body), then the `PUT` write. -/
def upload_file (o : Oracle) (token username repo filename : List Char)
    (tr : List Request) : Except (List Char) Body × List Request :=
  match make_github_request o token ("GET".data)
      (contentsEndpoint username repo filename) tr with
  | (.ok _, tr2) =>
    make_github_request o token ("PUT".data) (contentsEndpoint username repo filename) tr2
  | (.error _, tr2) =>
    make_github_request o token ("PUT".data) (contentsEndpoint username repo filename) tr2

/-- Embedding of `GitHubUploader._get_repo_name` (src lines 115-116):
`f"git-{self._me.id}-files"`. -/
def repo_name (meId : Nat) : List Char :=
  "git-".data ++ natDigits meId ++ "-files".data

/-- The raw-content link built on success (src line 298). -/
def rawUrl (username repo filename : List Char) : List Char :=
  "https://raw.githubusercontent.com/".data ++ username ++ "/".data ++ repo
    ++ "/main/".data ++ filename

/-- The module state that survives between commands: the configured token
and the `_last_upload` map. -/
structure ModuleState where
  github_token : List Char
  last_upload : Int → Option ℚ

/-- Outcome of `ghsetcmd`, identified by the message template answered. -/
inductive SetOutcome where
  | usage
  | tokenSet
  | invalidToken
deriving DecidableEq

/-- Embedding of `GitHubUploader.ghsetcmd` (src lines 230-249).  `args` models
`utils.get_args_raw(message)`. -/
def ghsetcmd (o : Oracle) (args : List Char) (st : ModuleState) :
    SetOutcome × ModuleState × List Request :=
  if args = [] then (.usage, st, [])
  else
    let old_token := st.github_token
    let candidate := pyStrip args
    match get_github_username o candidate [] with
    | (.ok _, tr) => (.tokenSet, ⟨candidate, st.last_upload⟩, tr)
    | (.error _, tr) => (.invalidToken, ⟨old_token, st.last_upload⟩, tr)

/-- Outcome of `ghuploadcmd`, identified by the message template answered. -/
inductive UploadOutcome where
  | noToken
  | rateLimited
  | noFile
  | fileTooLarge
  | invalidFilename
  | uploadError (msg : List Char)
  | success (filename url : List Char)
deriving DecidableEq

/-- The reply attachment: its size in bytes and its (possibly missing or
empty) display name. -/
structure GFile where
  size : Nat
  name : Option (List Char)

/-- The incoming command message: the sender and the reply attachment
(`none` models both "no reply" and "reply without a file"). -/
structure UploadMsg where
  sender_id : Int
  replyFile : Option GFile

/-- The tail of `ghuploadcmd` after the repository is known to exist:
collision resolution, then the upload and link formatting (src lines
294-305).  Yields `none` when the collision probe loop exceeds `fuel`. -/
def upload_tail (o : Oracle) (token username repo filename : List Char)
    (fuel : Nat) (st1 : ModuleState) (tr : List Request) :
    Option (UploadOutcome × ModuleState × List Request) :=
  match get_unique_filename o token username repo filename fuel tr with
  | none => none
  | some (uniqueName, tr2) =>
    match upload_file o token username repo uniqueName tr2 with
    | (.error e, tr3) => some (.uploadError e, st1, tr3)
    | (.ok _, tr3) => some (.success uniqueName (rawUrl username repo uniqueName), st1, tr3)

/-- Embedding of `GitHubUploader.ghuploadcmd` (src lines 251-309).  `now` models
`time.time()` in the rate check; `tsName` and `tsSan` model the two
`int(time.time())` readings (fallback display name, sanitizer fallback);
`meId` is `self._me.id`.  The answer messages sent to the chat are
represented by the `UploadOutcome`; the `asyncio.sleep(2)` after repository
creation has no observable effect in this model, and the chat-side
attachment download (`download_media`, not a GitHub API call) is treated as
succeeding, its bytes being irrelevant to control flow. -/
def ghuploadcmd (o : Oracle) (now : ℚ) (tsName tsSan : Nat) (meId : Nat)
    (msg : UploadMsg) (fuel : Nat) (st : ModuleState) :
    Option (UploadOutcome × ModuleState × List Request) :=
  if st.github_token = [] then some (.noToken, st, [])
  else
    match check_rate_limit now msg.sender_id st.last_upload with
    | (ok, m1) =>
      let st1 : ModuleState := ⟨st.github_token, m1⟩
      if ok = false then some (.rateLimited, st1, [])
      else
        match msg.replyFile with
        | none => some (.noFile, st1, [])
        | some f =>
          if 100 * 1024 * 1024 < f.size then some (.fileTooLarge, st1, [])
          else
            let filename := sanitize_filename tsSan (pyOr f.name (generatedName tsName))
            if filename = [] then some (.invalidFilename, st1, [])
            else
              match get_github_username o st1.github_token [] with
              | (.error e, tr1) => some (.uploadError e, st1, tr1)
              | (.ok username, tr1) =>
                let repo := repo_name meId
                match repository_exists o st1.github_token username repo tr1 with
                | (true, tr2) =>
                  upload_tail o st1.github_token username repo filename fuel st1 tr2
                | (false, tr2) =>
                  match create_repository o st1.github_token repo tr2 with
                  | (.error e, tr3) => some (.uploadError e, st1, tr3)
                  | (.ok _, tr3) =>
                    upload_tail o st1.github_token username repo filename fuel st1 tr3

/-- Recogniser for the generated-name shape `file_<digits>` with at least
one digit (used to state the spec's test property about all-space input). -/
def isGeneratedName (s : List Char) : Bool :=
  match s with
  | 'f' :: 'i' :: 'l' :: 'e' :: '_' :: rest =>
    !(rest.isEmpty) && rest.all (fun c => 48 ≤ c.toNat && c.toNat ≤ 57)
  | _ => false

/-- The ten decimal digit characters. -/
def digitList : List Char := ['0', '1', '2', '3', '4', '5', '6', '7', '8', '9']

/-- The seven characters the spec lists in step 2 of the sanitizer. -/
def specInvalid : List Char := ['<', '>', ':', '\"', '|', '?', '\\']

/-- The candidate sequence of the collision resolver: the original
filename first, then `f"{name}_{counter}{ext}"` for successive counters. -/
def candName (name ext filename : List Char) : Nat → List Char
  | 0 => filename
  | k + 1 => name ++ "_".data ++ natDigits (k + 1) ++ ext

/-- The body used by the demonstration oracle: no fields of interest. -/
def demoBody : Body := ⟨none, none, none, false⟩

/-- A remote repository `u/r` containing exactly `a.txt` and `a_1.txt`:
contents probes of those two paths succeed, every other request is a 404. -/
def demoOracle : Oracle := fun _ r =>
  if r.endpoint = contentsEndpoint ("u".data) ("r".data) ("a.txt".data) ∨
     r.endpoint = contentsEndpoint ("u".data) ("r".data) ("a_1.txt".data)
  then .response 200 demoBody
  else .response 404 demoBody

/-- The path set of `demoOracle`. -/
def demoExists (cur : List Char) : Bool :=
  cur == "a.txt".data || cur == "a_1.txt".data

/-! ### Sanity checks on concrete inputs -/

example : sanitize_filename 7 ("a b.txt".data) = "a*b.txt".data := by decide
example : sanitize_filename 7 ("a<b>.txt".data) = "a_b_.txt".data := by decide
example : sanitize_filename 7 ("   ".data) = "***".data := by decide
example : sanitize_filename 7 ([]) = "file_7".data := by decide
example : sanitize_filename 31 ("\t".data) = "file_31".data := by decide
example : sanitize_spec 7 ("   ".data) = "***".data := by decide
example : splitext ("a.txt".data) = ("a".data, ".txt".data) := by decide
example : splitext ("archive.tar.gz".data) = ("archive.tar".data, ".gz".data) := by decide
example : splitext (".bashrc".data) = (".bashrc".data, []) := by decide
example : splitext ("noext".data) = ("noext".data, []) := by decide
example : natDigits 1234 = "1234".data := by decide
example : natDigits 0 = "0".data := by decide
example : isGeneratedName ("file_123".data) = true := by decide
example : isGeneratedName ("***".data) = false := by decide
example : isGeneratedName ("file_".data) = false := by decide

/-! ### Helper lemmas about `dropWhile` and the strip functions -/

lemma forall_mem_dropWhile_iff (p : Char → Bool) (l : List Char) :
    (∀ x ∈ l.dropWhile p, p x = true) ↔ (∀ x ∈ l, p x = true) := by
  induction l with
  | nil => simp
  | cons a t ih =>
    by_cases ha : p a = true
    · simp [List.dropWhile_cons, ha, ih]
    · simp [List.dropWhile_cons, ha]

lemma mem_of_mem_dropWhile (p : Char → Bool) (l : List Char) (a : Char)
    (h : a ∈ l.dropWhile p) : a ∈ l := by
  induction l with
  | nil => simp at h
  | cons b t ih =>
    rw [List.dropWhile_cons] at h
    by_cases hb : p b = true
    · simp [hb] at h
      exact List.mem_cons_of_mem b (ih h)
    · simp [hb] at h
      simpa using h

lemma dropWhile_idem (p : Char → Bool) (l : List Char) :
    (l.dropWhile p).dropWhile p = l.dropWhile p := by
  induction l with
  | nil => simp
  | cons a t ih =>
    by_cases ha : p a = true
    · simp [List.dropWhile_cons, ha, ih]
    · simp [List.dropWhile_cons, ha]

lemma exists_append_dropWhile (p : Char → Bool) (l : List Char) :
    ∃ u, u ++ l.dropWhile p = l := by
  induction l with
  | nil => exact ⟨[], rfl⟩
  | cons a t ih =>
    by_cases ha : p a = true
    · obtain ⟨u, hu⟩ := ih
      exact ⟨a :: u, by simp [List.dropWhile_cons, ha, hu]⟩
    · exact ⟨[], by simp [List.dropWhile_cons, ha]⟩

lemma dropWhile_head_false (p : Char → Bool) (l : List Char) (a : Char)
    (w : List Char) (h : l.dropWhile p = a :: w) : p a = false := by
  induction l with
  | nil => simp at h
  | cons b t ih =>
    rw [List.dropWhile_cons] at h
    by_cases hb : p b = true
    · simp [hb] at h
      exact ih h
    · simp [hb] at h
      rw [← h.1]
      simpa using hb

lemma mem_pyLStrip (s : List Char) (a : Char) (h : a ∈ pyLStrip s) : a ∈ s :=
  mem_of_mem_dropWhile _ _ _ h

lemma mem_pyRStrip (s : List Char) (a : Char) (h : a ∈ pyRStrip s) : a ∈ s := by
  unfold pyRStrip at h
  rw [List.mem_reverse] at h
  have := mem_of_mem_dropWhile _ _ _ h
  rwa [List.mem_reverse] at this

lemma mem_pyStrip (s : List Char) (a : Char) (h : a ∈ pyStrip s) : a ∈ s :=
  mem_pyLStrip s a (mem_pyRStrip (pyLStrip s) a h)

lemma pyLStrip_eq_nil_iff (s : List Char) :
    pyLStrip s = [] ↔ ∀ c ∈ s, isPySpace c = true := by
  unfold pyLStrip
  exact List.dropWhile_eq_nil_iff

lemma pyRStrip_eq_nil_iff (s : List Char) :
    pyRStrip s = [] ↔ ∀ c ∈ s, isPySpace c = true := by
  unfold pyRStrip
  rw [List.reverse_eq_nil_iff, List.dropWhile_eq_nil_iff]
  constructor
  · intro h c hc
    exact h c (List.mem_reverse.mpr hc)
  · intro h c hc
    exact h c (List.mem_reverse.mp hc)

lemma pyStrip_eq_nil_iff (s : List Char) :
    pyStrip s = [] ↔ ∀ c ∈ s, isPySpace c = true := by
  unfold pyStrip
  rw [pyRStrip_eq_nil_iff]
  unfold pyLStrip
  exact forall_mem_dropWhile_iff _ _

lemma pyLStrip_idem (s : List Char) : pyLStrip (pyLStrip s) = pyLStrip s :=
  dropWhile_idem _ _

lemma pyRStrip_idem (s : List Char) : pyRStrip (pyRStrip s) = pyRStrip s := by
  unfold pyRStrip
  rw [List.reverse_reverse, dropWhile_idem]

lemma pyLStrip_pyRStrip_pyLStrip (s : List Char) :
    pyLStrip (pyRStrip (pyLStrip s)) = pyRStrip (pyLStrip s) := by
  cases hz : pyRStrip (pyLStrip s) with
  | nil => simp [pyLStrip]
  | cons a w =>
    have hpre : ∃ t, (a :: w) ++ t = pyLStrip s := by
      unfold pyRStrip at hz
      obtain ⟨u, hu⟩ := exists_append_dropWhile isPySpace (pyLStrip s).reverse
      refine ⟨u.reverse, ?_⟩
      have h2 := congrArg List.reverse hu
      rw [List.reverse_append, List.reverse_reverse] at h2
      rw [hz] at h2
      exact h2
    obtain ⟨t, ht⟩ := hpre
    have hhead : pyLStrip s = a :: (w ++ t) := by
      rw [← ht]; simp
    have hpa : isPySpace a = false := dropWhile_head_false isPySpace s a (w ++ t) hhead
    unfold pyLStrip
    rw [List.dropWhile_cons, hpa]
    simp

lemma pyStrip_idem (s : List Char) : pyStrip (pyStrip s) = pyStrip s := by
  unfold pyStrip
  rw [pyLStrip_pyRStrip_pyLStrip, pyRStrip_idem]

/-! ### Helper lemmas about `pyReplaceChar` -/

lemma pyReplaceChar_eq_self (c d : Char) (s : List Char) (h : c ∉ s) :
    pyReplaceChar c d s = s := by
  unfold pyReplaceChar
  induction s with
  | nil => rfl
  | cons a t ih =>
    simp only [List.mem_cons, not_or] at h
    simp [if_neg (Ne.symm h.1), ih h.2]

lemma not_mem_pyReplaceChar_left (c d : Char) (s : List Char) (h : c ≠ d) :
    c ∉ pyReplaceChar c d s := by
  unfold pyReplaceChar
  intro hm
  obtain ⟨b, _, hb⟩ := List.mem_map.mp hm
  by_cases hbc : b = c
  · rw [if_pos hbc] at hb
    exact h hb.symm
  · rw [if_neg hbc] at hb
    exact hbc hb

lemma not_mem_pyReplaceChar_keep (a c d : Char) (s : List Char)
    (h1 : a ∉ s) (h2 : a ≠ d) : a ∉ pyReplaceChar c d s := by
  unfold pyReplaceChar
  intro hm
  obtain ⟨b, hbs, hb⟩ := List.mem_map.mp hm
  by_cases hbc : b = c
  · rw [if_pos hbc] at hb
    exact h2 hb.symm
  · rw [if_neg hbc] at hb
    exact h1 (hb ▸ hbs)

/-! ### Helper lemmas about decimal digits and the generated name -/

lemma digitChar_mem (n : Nat) : digitChar n ∈ digitList := by
  unfold digitChar
  repeat' split
  all_goals decide

lemma natDigitsGo_mem (fuel : Nat) : ∀ (n : Nat) (a : Char),
    a ∈ natDigitsGo fuel n → a ∈ digitList := by
  induction fuel with
  | zero =>
    intro n a h
    unfold natDigitsGo at h
    simp at h
    subst h
    exact digitChar_mem _
  | succ f ih =>
    intro n a h
    unfold natDigitsGo at h
    by_cases hn : n < 10
    · rw [if_pos hn] at h
      simp at h
      subst h
      exact digitChar_mem _
    · rw [if_neg hn] at h
      rcases List.mem_append.mp h with h1 | h1
      · exact ih _ _ h1
      · simp at h1
        subst h1
        exact digitChar_mem _

lemma natDigits_mem (n : Nat) (a : Char) (h : a ∈ natDigits n) : a ∈ digitList :=
  natDigitsGo_mem n n a h

lemma generatedName_clean (ts : Nat) (a : Char) (h : a ∈ generatedName ts) :
    a ≠ ' ' ∧ a ∉ specInvalid := by
  unfold generatedName at h
  rcases List.mem_append.mp h with h1 | h1
  · have h2 : a ∈ (['f', 'i', 'l', 'e', '_'] : List Char) := h1
    fin_cases h2 <;> exact ⟨by decide, by decide⟩
  · have h2 : a ∈ (['0', '1', '2', '3', '4', '5', '6', '7', '8', '9'] : List Char) :=
      natDigits_mem ts a h1
    fin_cases h2 <;> exact ⟨by decide, by decide⟩

/-! ### Characterisation of the sanitizer output -/

lemma foldl_replaceStep_not_mem (a : Char) (cs : List Char) :
    ∀ s : List Char, a ≠ '_' → a ≠ '*' → (a ∉ s ∨ a ∈ cs) →
    a ∉ List.foldl replaceStep s cs := by
  induction cs with
  | nil =>
    intro s _ _ h
    rcases h with h | h
    · exact h
    · simp at h
  | cons c t ih =>
    intro s ha hstar h
    rw [List.foldl_cons]
    by_cases hc : c = '*'
    · subst hc
      have e : replaceStep s '*' = s := by
        unfold replaceStep
        simp
      rw [e]
      apply ih s ha hstar
      rcases h with h | h
      · exact Or.inl h
      · rcases List.mem_cons.mp h with h1 | h1
        · exact absurd h1 hstar
        · exact Or.inr h1
    · have e : replaceStep s c = pyReplaceChar c '_' s := by
        unfold replaceStep
        rw [if_neg hc]
      rw [e]
      apply ih _ ha hstar
      by_cases hac : a = c
      · subst hac
        exact Or.inl (not_mem_pyReplaceChar_left _ _ _ ha)
      · rcases h with h | h
        · exact Or.inl (not_mem_pyReplaceChar_keep _ _ _ _ h ha)
        · rcases List.mem_cons.mp h with h1 | h1
          · exact absurd h1 hac
          · exact Or.inr h1

lemma sanitize_filename_eq (ts : Nat) (x : List Char) :
    sanitize_filename ts x =
      pyStrip (if pyStrip (applyInvalid (pyReplaceChar ' ' '*' x)) = []
        then generatedName ts else applyInvalid (pyReplaceChar ' ' '*' x)) := rfl

lemma sanitize_clean (ts : Nat) (x : List Char) :
    ∀ a ∈ sanitize_filename ts x, a ≠ ' ' ∧ a ∉ specInvalid := by
  intro a ha
  rw [sanitize_filename_eq] at ha
  have ha3 := mem_pyStrip _ _ ha
  by_cases hc : pyStrip (applyInvalid (pyReplaceChar ' ' '*' x)) = []
  · rw [if_pos hc] at ha3
    exact generatedName_clean ts a ha3
  · rw [if_neg hc] at ha3
    constructor
    · intro h
      subst h
      exact foldl_replaceStep_not_mem ' ' _ _ (by decide) (by decide)
        (Or.inl (not_mem_pyReplaceChar_left _ _ _ (by decide))) ha3
    · intro hmem
      have h1 : a ≠ '_' := by
        intro h
        subst h
        revert hmem
        decide
      have h2 : a ≠ '*' := by
        intro h
        subst h
        revert hmem
        decide
      have h3 : a ∈ ("<>:\"|?*\\".data) := by
        have h4 : a ∈ (['<', '>', ':', '\"', '|', '?', '\\'] : List Char) := hmem
        fin_cases h4 <;> decide
      exact foldl_replaceStep_not_mem a _ _ h1 h2 (Or.inr h3) ha3

lemma sanitize_ne_nil (ts : Nat) (x : List Char) : sanitize_filename ts x ≠ [] := by
  rw [sanitize_filename_eq]
  by_cases hc : pyStrip (applyInvalid (pyReplaceChar ' ' '*' x)) = []
  · rw [if_pos hc]
    intro hnil
    rw [pyStrip_eq_nil_iff] at hnil
    have hf : 'f' ∈ generatedName ts := by
      unfold generatedName
      exact List.mem_append.mpr (Or.inl (by decide))
    exact absurd (hnil 'f' hf) (by decide)
  · rw [if_neg hc]
    exact hc

lemma sanitize_stripped (ts : Nat) (x : List Char) :
    pyStrip (sanitize_filename ts x) = sanitize_filename ts x := by
  rw [sanitize_filename_eq, pyStrip_idem]

lemma sanitize_of_clean (ts : Nat) (y : List Char) (hne : y ≠ [])
    (hstr : pyStrip y = y) (hclean : ∀ a ∈ y, a ≠ ' ' ∧ a ∉ specInvalid) :
    sanitize_filename ts y = y := by
  have hsp : ' ' ∉ y := fun h => (hclean ' ' h).1 rfl
  have e1 : pyReplaceChar ' ' '*' y = y := pyReplaceChar_eq_self _ _ _ hsp
  have key : ∀ cs : List Char, (∀ c ∈ cs, c = '*' ∨ c ∉ y) →
      List.foldl replaceStep y cs = y := by
    intro cs
    induction cs with
    | nil => intro _; rfl
    | cons c t ih =>
      intro hcs
      rw [List.foldl_cons]
      have e : replaceStep y c = y := by
        unfold replaceStep
        rcases hcs c (List.mem_cons_self c t) with h | h
        · rw [if_pos h]
        · by_cases hc : c = '*'
          · rw [if_pos hc]
          · rw [if_neg hc]
            exact pyReplaceChar_eq_self _ _ _ h
      rw [e]
      exact ih (fun c hc => hcs c (List.mem_cons_of_mem _ hc))
  have e2 : applyInvalid y = y := by
    apply key
    intro c hc
    by_cases hcs : c = '*'
    · exact Or.inl hcs
    · right
      intro hcy
      apply (hclean c hcy).2
      have h4 : c ∈ (['<', '>', ':', '\"', '|', '?', '*', '\\'] : List Char) := hc
      fin_cases h4
      all_goals first
        | exact absurd rfl hcs
        | decide
  rw [sanitize_filename_eq, e1, e2, hstr, if_neg hne, hstr]

/-! ### Helper lemmas about the rate limiter and the remote client -/

lemma check_rate_limit_reject (now : ℚ) (uid : Int) (m : Int → Option ℚ)
    (h : now - (m uid).getD 0 < 10) :
    check_rate_limit now uid m = (false, m) := by
  unfold check_rate_limit
  rw [if_pos h]

lemma check_rate_limit_accept (now : ℚ) (uid : Int) (m : Int → Option ℚ)
    (h : ¬ now - (m uid).getD 0 < 10) :
    check_rate_limit now uid m =
      (true, fun k => if k = uid then some now else m k) := by
  unfold check_rate_limit
  rw [if_neg h]

lemma make_github_request_ok (o : Oracle) (token method endpoint : List Char)
    (tr : List Request)
    (h : requestOk (o tr.length ⟨token, method, endpoint⟩) = true) :
    ∃ b, make_github_request o token method endpoint tr =
      (.ok b, tr ++ [⟨token, method, endpoint⟩]) := by
  simp only [make_github_request]
  cases ho : o tr.length ⟨token, method, endpoint⟩ with
  | clientError e =>
    rw [ho] at h
    simp [requestOk] at h
  | response status body =>
    rw [ho] at h
    simp only [requestOk, Bool.and_eq_true, Bool.not_eq_true,
      decide_eq_true_eq] at h
    have h1 : ¬(status = 403 ∧ body.mentionsRateLimit = true) := by
      rintro ⟨rfl, hm⟩
      rw [hm] at h
      simp at h
    have h2 : ¬(400 ≤ status) := by omega
    dsimp only
    rw [if_neg h1, if_neg h2]
    exact ⟨body, rfl⟩

lemma make_github_request_err (o : Oracle) (token method endpoint : List Char)
    (tr : List Request)
    (h : requestOk (o tr.length ⟨token, method, endpoint⟩) = false) :
    ∃ e, make_github_request o token method endpoint tr =
      (.error e, tr ++ [⟨token, method, endpoint⟩]) := by
  simp only [make_github_request]
  cases ho : o tr.length ⟨token, method, endpoint⟩ with
  | clientError e => exact ⟨_, rfl⟩
  | response status body =>
    rw [ho] at h
    simp only [requestOk] at h
    dsimp only
    by_cases h1 : status = 403 ∧ body.mentionsRateLimit = true
    · rw [if_pos h1]
      exact ⟨_, rfl⟩
    · rw [if_neg h1]
      have h2 : 400 ≤ status := by
        rcases Bool.and_eq_false_iff.mp h with h3 | h3
        · exfalso
          apply h1
          simp at h3
          exact h3
        · simp only [decide_eq_false_iff_not] at h3
          omega
      rw [if_pos h2]
      exact ⟨_, rfl⟩


/-! ### Claim C1 -/

/-- Claim C1, counterexample: on the all-spaces input `"   "` the sanitizer
returns `"***"` — the spaces are turned into asterisks before the
emptiness test, so the generated-name fallback is not taken and the result
does not match `file_<digits>` as the claim asserts. -/
theorem c1_counterexample :
    sanitize_filename 1700000000 ("   ".data) = "***".data ∧
    isGeneratedName ("***".data) = false := by
  constructor
  · decide
  · decide

/-- Claim C1 (amended): `sanitize("a b.txt") = "a*b.txt"` and
`sanitize("a<b>.txt") = "a_b_.txt"` hold as stated; on the all-spaces
input `"   "` the sanitizer instead returns the non-empty string `"***"`
(spaces are replaced by asterisks before the emptiness check, so no
generated name is produced), for every value of the clock. -/
theorem c1_theorem : ∀ ts : Nat,
    sanitize_filename ts ("a b.txt".data) = "a*b.txt".data ∧
    sanitize_filename ts ("a<b>.txt".data) = "a_b_.txt".data ∧
    sanitize_filename ts ("   ".data) = "***".data ∧
    sanitize_filename ts ("   ".data) ≠ [] := by
  intro ts
  refine ⟨rfl, rfl, rfl, ?_⟩
  have h3 : sanitize_filename ts ("   ".data) = "***".data := rfl
  rw [h3]
  decide

/-! ### Claim C2 -/

/-- Claim C2: for every input string and clock value, the sanitizer of the
source equals the four-step pipeline the spec describes: replace spaces by
`*`; replace each of the seven listed characters by `_` (asterisks
untouched); substitute `file_{timestamp}` if the result is empty or
all-whitespace; trim surrounding whitespace. -/
theorem c2_theorem (ts : Nat) (s : List Char) :
    sanitize_filename ts s = sanitize_spec ts s := by
  have key : ∀ z : List Char,
      (pyStrip z = []) ↔ (z = [] ∨ ∀ c ∈ z, isPySpace c = true) := by
    intro z
    rw [pyStrip_eq_nil_iff]
    constructor
    · exact fun h => Or.inr h
    · rintro (rfl | h)
      · simp
      · exact h
  show pyStrip _ = pyStrip _
  apply congrArg pyStrip
  exact if_congr (key (applyInvalid (pyReplaceChar ' ' '*' s))) rfl rfl

/-! ### Claim C8 -/

/-- Claim C8: the sanitizer is idempotent — applying it to its own output
returns that output unchanged, whatever clock values the two applications
see.  The output never contains a space or a replaced character and is
already stripped and non-empty, so every phase of the second pass is the
identity. -/
theorem c8_theorem (x : List Char) (ts1 ts2 : Nat) :
    sanitize_filename ts2 (sanitize_filename ts1 x) = sanitize_filename ts1 x :=
  sanitize_of_clean ts2 _ (sanitize_ne_nil ts1 x) (sanitize_stripped ts1 x)
    (sanitize_clean ts1 x)

/-! ### Claim C3 -/

/-- Claim C3, counterexample: the claim's parenthetical "an identity with
no stored entry is accepted" fails — a missing entry is read as timestamp
0, so at clock 5 a fresh identity is rejected. -/
theorem c3_counterexample :
    ((fun _ => none : Int → Option ℚ) 1 = none) ∧
    (check_rate_limit 5 1 (fun _ => none)).1 = false := by
  refine ⟨rfl, ?_⟩
  rw [check_rate_limit_reject 5 1 (fun _ => none) (by show (5 : ℚ) - 0 < 10; norm_num)]

/-- Claim C3 (amended): for every identity and call time, the check
returns `false` and leaves the map unchanged when the time since the
identity's recorded last-accepted timestamp is strictly below 10 seconds,
and otherwise stores the current time for that identity (touching no other
entry) and returns `true`; an identity with no stored entry is treated as
having last-accepted timestamp 0, hence is accepted exactly when the
current time is at least 10. -/
theorem c3_theorem (now : ℚ) (uid : Int) (m : Int → Option ℚ) :
    (now - (m uid).getD 0 < 10 → check_rate_limit now uid m = (false, m)) ∧
    (10 ≤ now - (m uid).getD 0 →
      (check_rate_limit now uid m).1 = true ∧
      (check_rate_limit now uid m).2 uid = some now ∧
      ∀ k, k ≠ uid → (check_rate_limit now uid m).2 k = m k) := by
  constructor
  · exact check_rate_limit_reject now uid m
  · intro h
    have h2 : ¬ now - (m uid).getD 0 < 10 := by linarith
    rw [check_rate_limit_accept now uid m h2]
    refine ⟨rfl, by simp, ?_⟩
    intro k hk
    simp [hk]

/-- Claim C3, witness: at clock 100 with an empty map, identity 7 is
accepted, its timestamp is recorded, and other identities are untouched. -/
theorem c3_witness :
    (check_rate_limit 100 7 (fun _ => none)).1 = true ∧
    (check_rate_limit 100 7 (fun _ => none)).2 7 = some 100 ∧
    ∀ k, k ≠ 7 → (check_rate_limit 100 7 (fun _ => none)).2 k = none := by
  have h := (c3_theorem 100 7 (fun _ => none)).2 (by show (10 : ℚ) ≤ 100 - 0; norm_num)
  exact ⟨h.1, h.2.1, fun k hk => h.2.2 k hk⟩

/-! ### Claim C7 -/

/-- Claim C7: for every remote call, exactly one request is issued; a
transport-level failure becomes `Network error: {cause}`; a 403 response
whose body mentions rate limiting becomes the distinct `Rate limit
exceeded` failure; every other response with status at least 400 becomes
the failure carrying the remote-supplied `message`, falling back to
`HTTP {status}` when the body has none. -/
theorem c7_theorem (o : Oracle) (token method endpoint : List Char)
    (tr : List Request) :
    (make_github_request o token method endpoint tr).2 =
      tr ++ [⟨token, method, endpoint⟩] ∧
    (∀ e, o tr.length ⟨token, method, endpoint⟩ = .clientError e →
      (make_github_request o token method endpoint tr).1 =
        .error ("Network error: ".data ++ e)) ∧
    (∀ status body, o tr.length ⟨token, method, endpoint⟩ = .response status body →
      ((status = 403 ∧ body.mentionsRateLimit = true) →
        (make_github_request o token method endpoint tr).1 =
          .error ("Rate limit exceeded".data)) ∧
      (¬(status = 403 ∧ body.mentionsRateLimit = true) → 400 ≤ status →
        (make_github_request o token method endpoint tr).1 =
          .error (body.message.getD ("HTTP ".data ++ natDigits status)))) := by
  refine ⟨?_, ?_, ?_⟩
  · simp only [make_github_request]
    cases ho : o tr.length ⟨token, method, endpoint⟩ with
    | clientError e => rfl
    | response status body =>
      dsimp only
      by_cases h1 : status = 403 ∧ body.mentionsRateLimit = true
      · rw [if_pos h1]
      · rw [if_neg h1]
        by_cases h2 : 400 ≤ status
        · rw [if_pos h2]
        · rw [if_neg h2]
  · intro e he
    simp only [make_github_request]
    rw [he]
  · intro status body hsb
    constructor
    · intro h1
      simp only [make_github_request]
      rw [hsb]
      dsimp only
      rw [if_pos h1]
    · intro h1 h2
      simp only [make_github_request]
      rw [hsb]
      dsimp only
      rw [if_neg h1, if_pos h2]

/-- Claim C7, witness: a 500 response with no `message` field is reported
as the fallback `HTTP 500` failure, on a concrete call. -/
theorem c7_witness :
    (make_github_request (fun _ _ => .response 500 ⟨none, none, none, false⟩)
      ("tok".data) ("GET".data) ("/user".data) []).1 =
      .error ("HTTP 500".data) := by
  have h := (c7_theorem (fun _ _ => .response 500 ⟨none, none, none, false⟩)
    ("tok".data) ("GET".data) ("/user".data) []).2.2 500
    ⟨none, none, none, false⟩ rfl
  exact h.2 (by decide) (by decide)

/-! ### Claim C5 -/

/-- Claim C5: the token-set command is an atomic swap-and-revert.  For
every oracle, non-empty argument and prior state: the rate map is never
touched; if the identity lookup performed with the candidate (the stripped
argument) fails, the previously active credential is still the active
credential afterwards; if it succeeds, the candidate is the active
credential afterwards.  No other final state is possible. -/
theorem c5_theorem (o : Oracle) (args : List Char) (st : ModuleState)
    (h : args ≠ []) :
    ((ghsetcmd o args st).2.1.last_upload = st.last_upload) ∧
    (∀ e, (get_github_username o (pyStrip args) []).1 = .error e →
      (ghsetcmd o args st).1 = .invalidToken ∧
      (ghsetcmd o args st).2.1.github_token = st.github_token) ∧
    (∀ u, (get_github_username o (pyStrip args) []).1 = .ok u →
      (ghsetcmd o args st).1 = .tokenSet ∧
      (ghsetcmd o args st).2.1.github_token = pyStrip args) := by
  simp only [ghsetcmd]
  rw [if_neg h]
  cases hg : get_github_username o (pyStrip args) [] with
  | mk res tr =>
    cases res with
    | ok u =>
      dsimp only
      refine ⟨rfl, ?_, ?_⟩
      · intro e he
        simp at he
      · intro u2 hu
        exact ⟨rfl, rfl⟩
    | error e2 =>
      dsimp only
      refine ⟨rfl, ?_, ?_⟩
      · intro e he
        exact ⟨rfl, rfl⟩
      · intro u hu
        simp at hu

/-- Claim C5, witness: with an oracle whose identity lookup fails at the
transport level, setting a candidate token reports `invalid_token` and
leaves the old credential active. -/
theorem c5_witness :
    (ghsetcmd (fun _ _ => .clientError ("boom".data)) ("tok".data)
      ⟨"old".data, fun _ => none⟩).1 = SetOutcome.invalidToken ∧
    (ghsetcmd (fun _ _ => .clientError ("boom".data)) ("tok".data)
      ⟨"old".data, fun _ => none⟩).2.1.github_token = "old".data := by
  have h := (c5_theorem (fun _ _ => .clientError ("boom".data)) ("tok".data)
    ⟨"old".data, fun _ => none⟩ (by decide)).2.1
    ("Failed to get username: Network error: boom".data) rfl
  exact ⟨h.1, h.2⟩

/-! ### Claim C4 -/

lemma unique_loop_spec (o : Oracle) (token username repo name ext filename : List Char)
    (E : List Char → Bool)
    (hE : ∀ n cur, requestOk (o n ⟨token, "GET".data,
      contentsEndpoint username repo cur⟩) = E cur) :
    ∀ (dk counter fuel : Nat) (tr : List Request),
      dk < fuel →
      E (candName name ext filename (counter + dk)) = false →
      (∀ j, counter ≤ j → j < counter + dk → E (candName name ext filename j) = true) →
      ∃ tr2, unique_loop o token username repo name ext fuel
          (candName name ext filename counter) counter tr =
        some (candName name ext filename (counter + dk), tr2) := by
  intro dk
  induction dk with
  | zero =>
    intro counter fuel tr hfuel hfree _
    cases fuel with
    | zero => omega
    | succ f =>
      obtain ⟨e, he⟩ := make_github_request_err o token ("GET".data)
        (contentsEndpoint username repo (candName name ext filename counter)) tr
        (by rw [hE]; exact hfree)
      refine ⟨tr ++ [⟨token, "GET".data,
        contentsEndpoint username repo (candName name ext filename counter)⟩], ?_⟩
      simp only [unique_loop]
      rw [he]
      rfl
  | succ d ih =>
    intro counter fuel tr hfuel hfree hmin
    cases fuel with
    | zero => omega
    | succ f =>
      have hsucc : E (candName name ext filename counter) = true :=
        hmin counter (le_refl _) (by omega)
      obtain ⟨b, hb⟩ := make_github_request_ok o token ("GET".data)
        (contentsEndpoint username repo (candName name ext filename counter)) tr
        (by rw [hE]; exact hsucc)
      have step : unique_loop o token username repo name ext (f + 1)
          (candName name ext filename counter) counter tr =
        unique_loop o token username repo name ext f
          (candName name ext filename (counter + 1)) (counter + 1)
          (tr ++ [⟨token, "GET".data,
            contentsEndpoint username repo (candName name ext filename counter)⟩]) := by
        simp only [unique_loop]
        rw [hb]
        rfl
      rw [step]
      have eidx : counter + 1 + d = counter + (d + 1) := by omega
      have ih2 := ih (counter + 1) f
        (tr ++ [⟨token, "GET".data,
          contentsEndpoint username repo (candName name ext filename counter)⟩])
        (by omega) (by rw [eidx]; exact hfree)
        (fun j hj1 hj2 => hmin j (by omega) (by omega))
      rw [eidx] at ih2
      exact ih2

/-- Claim C4: for every oracle whose contents probes behave like a fixed
set of existing paths `E`, the collision resolver started on `filename`
returns the first candidate in the sequence `filename`, `stem_1{ext}`,
`stem_2{ext}`, ... whose existence lookup fails, provided the loop is given
enough fuel to reach it (the source loop is unbounded). -/
theorem c4_theorem (o : Oracle) (token username repo filename : List Char)
    (E : List Char → Bool) (k fuel : Nat) (tr : List Request)
    (hE : ∀ n cur, requestOk (o n ⟨token, "GET".data,
      contentsEndpoint username repo cur⟩) = E cur)
    (hfree : E (candName (splitext filename).1 (splitext filename).2 filename k) = false)
    (hmin : ∀ j < k,
      E (candName (splitext filename).1 (splitext filename).2 filename j) = true)
    (hfuel : k < fuel) :
    ∃ tr2, get_unique_filename o token username repo filename fuel tr =
      some (candName (splitext filename).1 (splitext filename).2 filename k, tr2) := by
  have h := unique_loop_spec o token username repo (splitext filename).1
    (splitext filename).2 filename E hE k 0 fuel tr hfuel
    (by rw [Nat.zero_add]; exact hfree)
    (fun j hj1 hj2 => hmin j (by omega))
  rw [Nat.zero_add] at h
  unfold get_unique_filename
  exact h

lemma demoOracle_consistent :
    ∀ n cur, requestOk (demoOracle n ⟨"tok".data, "GET".data,
      contentsEndpoint ("u".data) ("r".data) cur⟩) = demoExists cur := by
  intro n cur
  by_cases h1 : cur = "a.txt".data
  · subst h1
    unfold demoOracle
    dsimp only
    decide
  · by_cases h2 : cur = "a_1.txt".data
    · subst h2
      unfold demoOracle
      dsimp only
      decide
    · have e1 : ¬(contentsEndpoint ("u".data) ("r".data) cur =
          contentsEndpoint ("u".data) ("r".data) ("a.txt".data)) := by
        intro he
        exact h1 (List.append_cancel_left he)
      have e2 : ¬(contentsEndpoint ("u".data) ("r".data) cur =
          contentsEndpoint ("u".data) ("r".data) ("a_1.txt".data)) := by
        intro he
        exact h2 (List.append_cancel_left he)
      unfold demoOracle
      dsimp only
      rw [if_neg (by rintro (h | h); exacts [e1 h, e2 h])]
      unfold requestOk demoExists
      simp [h1, h2]

/-- Claim C4, witness: in a repository containing `a.txt` and `a_1.txt`
but not `a_2.txt`, resolving `a.txt` returns `a_2.txt`. -/
theorem c4_witness :
    ∃ tr2, get_unique_filename demoOracle ("tok".data) ("u".data) ("r".data)
      ("a.txt".data) 5 [] = some ("a_2.txt".data, tr2) := by
  have h := c4_theorem demoOracle ("tok".data) ("u".data) ("r".data)
    ("a.txt".data) demoExists 2 5 [] demoOracle_consistent
    (by decide) (by decide) (by decide)
  exact h

/-! ### Claim C6 -/

/-- Claim C6: an upload request whose attachment exceeds 100 MiB is
rejected with the file-too-large failure and the orchestration issues zero
remote requests — given that the request got as far as the size check
(token configured, rate check passed, reply present), which are the checks
the source runs first, all equally without remote calls. -/
theorem c6_theorem (o : Oracle) (now : ℚ) (tsName tsSan : Nat) (meId : Nat)
    (sid : Int) (f : GFile) (fuel : Nat) (st : ModuleState)
    (htok : st.github_token ≠ [])
    (hrate : ¬ now - (st.last_upload sid).getD 0 < 10)
    (hsize : 100 * 1024 * 1024 < f.size) :
    ghuploadcmd o now tsName tsSan meId ⟨sid, some f⟩ fuel st =
      some (.fileTooLarge,
        ⟨st.github_token, fun k => if k = sid then some now else st.last_upload k⟩,
        []) := by
  simp only [ghuploadcmd]
  rw [if_neg htok, check_rate_limit_accept now sid st.last_upload hrate]
  dsimp only
  rw [if_neg (by simp : ¬(true = false)), if_pos hsize]

/-- Claim C6, witness: a 150 MiB attachment from a configured, non-limited
user is rejected as too large with an empty request trace. -/
theorem c6_witness :
    ghuploadcmd (fun _ _ => .clientError []) 100 0 0 42 ⟨1, some ⟨157286400, none⟩⟩ 0
      ⟨"tok".data, fun _ => none⟩ =
      some (.fileTooLarge,
        ⟨"tok".data, fun k => if k = 1 then some 100 else none⟩, []) := by
  exact c6_theorem (fun _ _ => .clientError []) 100 0 0 42 1 ⟨157286400, none⟩ 0
    ⟨"tok".data, fun _ => none⟩ (by decide)
    (by show ¬((100 : ℚ) - 0 < 10); norm_num) (by decide)

/-! ### Claim C10 -/

/-- Claim C10: when the rate check passes, the identity's timestamp is
recorded before the attachment and size checks run, so a request rejected
with the no-file or file-too-large failure (which performs no remote call)
still consumes the 10-second cooldown: any later upload attempt by the
same identity within 10 seconds is rejected as rate-limited, whatever its
other parameters. -/
theorem c10_theorem (o : Oracle) (now : ℚ) (tsName tsSan : Nat) (meId : Nat)
    (sid : Int) (rf : Option GFile) (fuel : Nat) (st : ModuleState)
    (htok : st.github_token ≠ [])
    (hrate : ¬ now - (st.last_upload sid).getD 0 < 10)
    (hrej : rf = none ∨ ∃ f, rf = some f ∧ 100 * 1024 * 1024 < f.size) :
    (∃ out, ghuploadcmd o now tsName tsSan meId ⟨sid, rf⟩ fuel st =
        some (out, ⟨st.github_token,
          fun k => if k = sid then some now else st.last_upload k⟩, []) ∧
        (out = .noFile ∨ out = .fileTooLarge)) ∧
    (∀ (o2 : Oracle) (now2 : ℚ) (tsN2 tsS2 meId2 : Nat) (rf2 : Option GFile)
        (fuel2 : Nat) (tok2 : List Char), tok2 ≠ [] → now2 - now < 10 →
      ghuploadcmd o2 now2 tsN2 tsS2 meId2 ⟨sid, rf2⟩ fuel2
          ⟨tok2, fun k => if k = sid then some now else st.last_upload k⟩ =
        some (.rateLimited,
          ⟨tok2, fun k => if k = sid then some now else st.last_upload k⟩, [])) := by
  constructor
  · rcases hrej with rfl | ⟨f, rfl, hsize⟩
    · refine ⟨.noFile, ?_, Or.inl rfl⟩
      simp only [ghuploadcmd]
      rw [if_neg htok, check_rate_limit_accept now sid st.last_upload hrate]
      dsimp only
      rw [if_neg (by simp : ¬(true = false))]
    · refine ⟨.fileTooLarge, ?_, Or.inr rfl⟩
      simp only [ghuploadcmd]
      rw [if_neg htok, check_rate_limit_accept now sid st.last_upload hrate]
      dsimp only
      rw [if_neg (by simp : ¬(true = false)), if_pos hsize]
  · intro o2 now2 tsN2 tsS2 meId2 rf2 fuel2 tok2 htok2 hlt
    simp only [ghuploadcmd]
    rw [if_neg htok2, check_rate_limit_reject now2 sid _ (by simpa using hlt)]
    rfl

/-- Claim C10, witness: user 1 passes the rate check at time 100 with no
attachment, is answered "no file", and is then rate-limited at time 105. -/
theorem c10_witness :
    ghuploadcmd (fun _ _ => .clientError []) 105 0 0 5 ⟨1, none⟩ 0
      ⟨"tok".data, fun k => if k = 1 then some 100 else none⟩ =
      some (.rateLimited,
        ⟨"tok".data, fun k => if k = 1 then some 100 else none⟩, []) := by
  exact (c10_theorem (fun _ _ => .clientError []) 100 0 0 5 1 none 0
    ⟨"tok".data, fun _ => none⟩ (by decide)
    (by show ¬((100 : ℚ) - 0 < 10); norm_num) (Or.inl rfl)).2
    (fun _ _ => .clientError []) 105 0 0 5 none 0 ("tok".data)
    (by decide) (by show (105 : ℚ) - 100 < 10; norm_num)

/-! ### Claim C9 -/

lemma upload_tail_not_invalid (o : Oracle) (token username repo filename : List Char)
    (fuel : Nat) (st1 : ModuleState) (tr : List Request)
    (r : UploadOutcome × ModuleState × List Request)
    (h : upload_tail o token username repo filename fuel st1 tr = some r) :
    r.1 ≠ UploadOutcome.invalidFilename := by
  simp only [upload_tail] at h
  cases hg : get_unique_filename o token username repo filename fuel tr with
  | none =>
    rw [hg] at h
    simp at h
  | some p =>
    rw [hg] at h
    rcases p with ⟨u, tr2⟩
    dsimp only at h
    cases hu : upload_file o token username repo u tr2 with
    | mk res tr3 =>
      rw [hu] at h
      cases res with
      | ok b =>
        dsimp only at h
        injection h with h2
        subst h2
        simp
      | error e =>
        dsimp only at h
        injection h with h2
        subst h2
        simp

/-- Claim C9: the sanitizer never returns the empty string, and
consequently the orchestrator's empty-filename rejection (the
`invalid_filename` answer checked right after sanitization) is unreachable:
no execution of the upload command produces that outcome. -/
theorem c9_theorem :
    (∀ (ts : Nat) (s : List Char), sanitize_filename ts s ≠ []) ∧
    (∀ (o : Oracle) (now : ℚ) (tsName tsSan meId : Nat) (msg : UploadMsg)
        (fuel : Nat) (st : ModuleState)
        (r : UploadOutcome × ModuleState × List Request),
      ghuploadcmd o now tsName tsSan meId msg fuel st = some r →
      r.1 ≠ UploadOutcome.invalidFilename) := by
  refine ⟨sanitize_ne_nil, ?_⟩
  intro o now tsName tsSan meId msg fuel st r h
  simp only [ghuploadcmd] at h
  by_cases h1 : st.github_token = []
  · rw [if_pos h1] at h
    injection h with h2
    subst h2
    simp
  · rw [if_neg h1] at h
    cases hc : check_rate_limit now msg.sender_id st.last_upload with
    | mk ok m1 =>
      rw [hc] at h
      dsimp only at h
      by_cases h2 : ok = false
      · rw [if_pos h2] at h
        injection h with h3
        subst h3
        simp
      · rw [if_neg h2] at h
        cases hrf : msg.replyFile with
        | none =>
          rw [hrf] at h
          dsimp only at h
          injection h with h3
          subst h3
          simp
        | some f =>
          rw [hrf] at h
          dsimp only at h
          by_cases h3 : 100 * 1024 * 1024 < f.size
          · rw [if_pos h3] at h
            injection h with h4
            subst h4
            simp
          · rw [if_neg h3] at h
            rw [if_neg (sanitize_ne_nil tsSan _)] at h
            cases hg : get_github_username o st.github_token [] with
            | mk res tr1 =>
              rw [hg] at h
              cases res with
              | error e =>
                dsimp only at h
                injection h with h4
                subst h4
                simp
              | ok username =>
                dsimp only at h
                cases hre : repository_exists o st.github_token username
                    (repo_name meId) tr1 with
                | mk rex tr2 =>
                  rw [hre] at h
                  cases rex with
                  | true =>
                    dsimp only at h
                    exact upload_tail_not_invalid _ _ _ _ _ _ _ _ _ h
                  | false =>
                    dsimp only at h
                    cases hcr : create_repository o st.github_token
                        (repo_name meId) tr2 with
                    | mk cres tr3 =>
                      rw [hcr] at h
                      cases cres with
                      | error e =>
                        dsimp only at h
                        injection h with h4
                        subst h4
                        simp
                      | ok b =>
                        dsimp only at h
                        exact upload_tail_not_invalid _ _ _ _ _ _ _ _ _ h

/-- Claim C9, witness: a run of the upload command (here one rejected for
a missing token) indeed does not produce the invalid-filename outcome. -/
theorem c9_witness :
    (UploadOutcome.noToken, (⟨[], fun _ => none⟩ : ModuleState),
      ([] : List Request)).1 ≠ UploadOutcome.invalidFilename := by
  exact c9_theorem.2 (fun _ _ => .clientError []) 0 0 0 0 ⟨0, none⟩ 0
    ⟨[], fun _ => none⟩ (.noToken, ⟨[], fun _ => none⟩, []) rfl
